import Mathlib

/-!
Verification of the "Blue+Me" messaging web application (Next.js + flat-file
JSON storage) against its natural-language specification.

The TypeScript source is shallowly embedded: each store (users, contacts,
messages) becomes a Lean value that the pure embeddings of the route handlers
take and return explicitly; `Date` millisecond timestamps become `Nat`
(ISO-string round-tripping through `new Date(s).getTime()` is order- and
value-preserving, so timestamps are carried directly as their millisecond
values); JavaScript truthiness tests on request-body strings become tests
against `Option String` (`none` = absent/null, `some ""` = empty string, both
falsy); fresh ids and "now" are passed in as parameters.
-/

namespace WebChat

/-- A stored message, mirroring the `Message` interface of
`src/lib/data-storage.ts` (timestamps as epoch milliseconds). -/
structure Message where
  id : String
  senderId : String
  receiverId : String
  content : String
  timestamp : Nat
  read : Bool
deriving Repr, DecidableEq

/-- JavaScript truthiness test for an optional string request field:
`undefined`/`null` and the empty string are falsy. -/
def falsyStr : Option String → Bool
  | none => true
  | some s => s == ""

/-- JavaScript `String.prototype.trim()`: drop whitespace from both ends
(defined over the character list so that it evaluates inside the kernel). -/
def jsTrim (s : String) : String :=
  String.mk ((s.toList.dropWhile Char.isWhitespace).reverse.dropWhile Char.isWhitespace).reverse

/-- The filter predicate of `getConversationMessages` in
`src/lib/data-storage.ts`: the message travels between `userId1` and
`userId2`, in either direction. -/
def conversationFilter (userId1 userId2 : String) (m : Message) : Bool :=
  (m.senderId == userId1 && m.receiverId == userId2) ||
  (m.senderId == userId2 && m.receiverId == userId1)

/-- The comparator of `getConversationMessages`'s `.sort`: ascending by
timestamp (`new Date(a.timestamp).getTime() - new Date(b.timestamp).getTime()`). -/
def msgLe (a b : Message) : Prop := a.timestamp ≤ b.timestamp

instance : DecidableRel msgLe := fun a b => Nat.decLe a.timestamp b.timestamp

instance : IsTotal Message msgLe := ⟨fun a b => Nat.le_total a.timestamp b.timestamp⟩

instance : IsTrans Message msgLe := ⟨fun _ _ _ h₁ h₂ => Nat.le_trans h₁ h₂⟩

/-- `getConversationMessages(userId1, userId2)` from `src/lib/data-storage.ts`:
filter the flat message list to the pair's messages, then sort ascending by
timestamp.  JavaScript `Array.prototype.sort` is a stable sort and the
comparator is a total preorder on timestamps, so any stable sort (here,
Mathlib's insertion sort, which inserts each element before later equal ones)
computes the same list. -/
def getConversationMessages (userId1 userId2 : String) (msgs : List Message) : List Message :=
  List.insertionSort msgLe (msgs.filter (conversationFilter userId1 userId2))

/-- `createMessage` from `src/lib/data-storage.ts`: append a message with the
given fresh id, current timestamp and `read: false`; returns the new message
(the store with the message pushed is what gets persisted). -/
def createMessage (senderId receiverId content : String) (freshId : String) (now : Nat)
    (msgs : List Message) : Message × List Message :=
  let newMessage : Message :=
    { id := freshId, senderId := senderId, receiverId := receiverId,
      content := content, timestamp := now, read := false }
  (newMessage, msgs ++ [newMessage])

/-- `markMessagesAsRead(userId, otherUserId)` from `src/lib/data-storage.ts`:
map over the store, flipping `read` to `true` on messages from `otherUserId`
to `userId` that are not yet read. -/
def markMessagesAsRead (userId otherUserId : String) (msgs : List Message) : List Message :=
  msgs.map fun m =>
    if m.senderId == otherUserId && m.receiverId == userId && !m.read then
      { m with read := true }
    else m

/-- Result of a `/api/messages` handler: HTTP status, the JSON body (the
conversation list for GET, the created message for POST), and the message
store as persisted afterwards. -/
structure MessagesResult where
  status : Nat
  body : List Message
  created : Option Message
  store : List Message
deriving Repr, DecidableEq

/-- `GET /api/messages?userId=...` (authenticated caller `callerId`), from
`src/app/api/messages/route.ts`: 400 when the `userId` query parameter is
absent or empty, otherwise return the conversation and, as a side effect,
mark the incoming messages read. -/
def getMessagesRoute (callerId : String) (otherUserId : Option String)
    (msgs : List Message) : MessagesResult :=
  if falsyStr otherUserId then
    ⟨400, [], none, msgs⟩
  else
    let o := otherUserId.getD ""
    ⟨200, getConversationMessages callerId o msgs, none, markMessagesAsRead callerId o msgs⟩

/-- `POST /api/messages` (authenticated caller `senderId`), from
`src/app/api/messages/route.ts`: reject with 400 when `receiverId` or
`content` is falsy (absent or the empty string — the code tests `!content`,
not emptiness after trimming); otherwise create a message whose content is
`content.trim()`. -/
def postMessagesRoute (senderId : String) (receiverId content : Option String)
    (freshId : String) (now : Nat) (msgs : List Message) : MessagesResult :=
  if falsyStr receiverId || falsyStr content then
    ⟨400, [], none, msgs⟩
  else
    let r := receiverId.getD ""
    let c := content.getD ""
    let res := createMessage senderId r (jsTrim c) freshId now msgs
    ⟨201, [], some res.1, res.2⟩

/-- A stored user, mirroring the `User` interface of `src/lib/data-storage.ts`
(timestamps as epoch milliseconds).  `status` and `profilePicture` are plain
strings because every creation path initializes them (`user.status || ''`). -/
structure User where
  id : String
  phone : String
  password : String
  name : String
  status : String
  profilePicture : String
  createdAt : Nat
  updatedAt : Option Nat := none
  lastSeen : Option Nat := none
deriving Repr, DecidableEq

/-- A JSON scalar, for modelling serialized response bodies field by field. -/
inductive JVal where
  | str (s : String)
  | num (n : Nat)
  | bool (b : Bool)
deriving Repr, DecidableEq

/-- Serialize an optional numeric field: present keys only (JSON omits
`undefined` properties). -/
def optNumField (k : String) : Option Nat → List (String × JVal)
  | none => []
  | some n => [(k, JVal.num n)]

/-- The JSON object produced by serializing a full `User` record (as the
by-id branch of `POST /api/contacts` does with `contact: contactUser`). -/
def userJson (u : User) : List (String × JVal) :=
  [("id", JVal.str u.id), ("phone", JVal.str u.phone), ("password", JVal.str u.password),
   ("name", JVal.str u.name), ("status", JVal.str u.status),
   ("profilePicture", JVal.str u.profilePicture), ("createdAt", JVal.num u.createdAt)]
  ++ optNumField "updatedAt" u.updatedAt ++ optNumField "lastSeen" u.lastSeen

/-- The rest-spread `const { password: _, ...userWithoutPassword } = user`
used by the routes that scrub the password: the same object minus the
`password` key. -/
def userWithoutPassword (u : User) : List (String × JVal) :=
  (userJson u).filter (fun kv => kv.1 != "password")

/-- `phone.replace(/\s+/g, '')`: drop all whitespace characters. -/
def normalizePhone (s : String) : String :=
  String.mk (s.toList.filter (fun c => !c.isWhitespace))

/-- The test `/^\d{10,15}$/.test(s)`: 10 to 15 characters, all digits. -/
def phoneRegexTest (s : String) : Bool :=
  decide (10 ≤ s.length) && decide (s.length ≤ 15) && s.toList.all Char.isDigit

/-- `createUser` from `src/lib/data-storage.ts`, at the argument shapes the
routes use (callers pass `phone`, `password`, `name`; `status` and
`profilePicture` default to `''`): push a user with the given fresh id and
creation time, return it together with the persisted store. -/
def createUser (phone password name : String) (freshId : String) (now : Nat)
    (users : List User) : User × List User :=
  let newUser : User :=
    { id := freshId, phone := phone, password := password, name := name,
      status := "", profilePicture := "", createdAt := now }
  (newUser, users ++ [newUser])

/-- The update payload of `updateUser` (`Partial<Omit<User, 'id' | 'password'
| 'phone' | 'createdAt'>>`); `none` = key absent. -/
structure UserUpdates where
  name : Option String := none
  status : Option String := none
  profilePicture : Option String := none
  lastSeen : Option Nat := none
deriving Repr, DecidableEq

/-- The merge `{ ...users[userIndex], ...updates, updatedAt: now }` of
`updateUser`. -/
def applyUpdates (u : User) (upd : UserUpdates) (now : Nat) : User :=
  { u with
    name := upd.name.getD u.name
    status := upd.status.getD u.status
    profilePicture := upd.profilePicture.getD u.profilePicture
    lastSeen := match upd.lastSeen with | some t => some t | none => u.lastSeen
    updatedAt := some now }

/-- `updateUser(userId, updates)` from `src/lib/data-storage.ts`: find the
first user with the id, merge the updates into it (stamping `updatedAt`),
persist; `none` and an unchanged store when no user matches. -/
def updateUser (userId : String) (upd : UserUpdates) (now : Nat) (users : List User) :
    Option User × List User :=
  if h : users.findIdx (fun u => u.id == userId) < users.length then
    (some (applyUpdates (users.get ⟨users.findIdx (fun u => u.id == userId), h⟩) upd now),
     users.set (users.findIdx (fun u => u.id == userId))
       (applyUpdates (users.get ⟨users.findIdx (fun u => u.id == userId), h⟩) upd now))
  else (none, users)

/-- A contact edge, mirroring the `Contact` interface of
`src/lib/data-storage.ts`. -/
structure Contact where
  userId : String
  contactId : String
  addedAt : Nat
deriving Repr, DecidableEq

/-- The persisted `contacts.json` object (`Record<string, Contact[]>`),
as an association list in key-insertion order. -/
abbrev ContactStore := List (String × List Contact)

/-- `getUserContacts(userId)`: `contacts[userId] || []`. -/
def getUserContacts (userId : String) (cs : ContactStore) : List Contact :=
  match cs.find? (fun p => p.1 == userId) with
  | some p => p.2
  | none => []

/-- JavaScript object assignment `contacts[k] = v`: replace the value of an
existing key in place, otherwise append the key (object keys keep insertion
order). -/
def setKey (k : String) (v : List Contact) (cs : ContactStore) : ContactStore :=
  if cs.any (fun p => p.1 == k) then
    cs.map (fun p => if p.1 == k then (k, v) else p)
  else cs ++ [(k, v)]

/-- `addContact(userId, contactId)` from `src/lib/data-storage.ts`: no-op
when an edge with the same `contactId` is already in the owner's list,
otherwise push `{userId, contactId, addedAt: now}` and persist. -/
def addContact (userId contactId : String) (now : Nat) (cs : ContactStore) : ContactStore :=
  if (getUserContacts userId cs).any (fun c => c.contactId == contactId) then cs
  else setKey userId (getUserContacts userId cs ++ [⟨userId, contactId, now⟩]) cs

/-- Contact stores reachable by the application: built from the empty object
by `addContact` steps (the only code path that ever writes `contacts.json`). -/
inductive ReachableContacts : ContactStore → Prop
  | empty : ReachableContacts []
  | step (u c : String) (now : Nat) {cs : ContactStore} :
      ReachableContacts cs → ReachableContacts (addContact u c now cs)

/-- All (ownerUserId, contactUserId) edges stored anywhere in the object. -/
def storeEdges (cs : ContactStore) : List (String × String) :=
  cs.flatMap fun p => p.2.map fun c => (c.userId, c.contactId)

/-- `OFFLINE_THRESHOLD = 5 * 60 * 1000`. -/
def OFFLINE_THRESHOLD : Nat := 5 * 60 * 1000

/-- `user.lastSeen ? new Date(user.lastSeen).getTime() : 0`. -/
def lastSeenMs : Option Nat → Int
  | some t => (t : Int)
  | none => 0

/-- The presence computation both `GET /api/users/status` and
`GET /api/contacts` perform: `(now - lastSeen) < OFFLINE_THRESHOLD`
(plain JavaScript number subtraction, hence over `Int`). -/
def isOnlineAt (now : Nat) (lastSeen : Option Nat) : Bool :=
  decide ((now : Int) - lastSeenMs lastSeen < (OFFLINE_THRESHOLD : Int))

/-- One entry of the status map returned by `GET /api/users/status`. -/
structure StatusEntry where
  isOnline : Bool
  lastSeen : Option Nat
deriving Repr, DecidableEq

/-- `GET /api/users/status?userIds=...` (authenticated), from
`src/app/api/users/status/route.ts`: for each requested id with a matching
user, report `isOnline` and the raw `lastSeen`. -/
def getUsersStatusRoute (now : Nat) (userIds : List String) (users : List User) :
    List (String × StatusEntry) :=
  userIds.filterMap fun uid =>
    match users.find? (fun u => u.id == uid) with
    | none => none
    | some u => some (uid, ⟨isOnlineAt now u.lastSeen, u.lastSeen⟩)

/-- `POST /api/users/status` (the heartbeat), from
`src/app/api/users/status/route.ts`: `updateUser(callerId, { lastSeen: now })`,
responding 200. -/
def postUsersStatusRoute (callerId : String) (now : Nat) (users : List User) :
    Nat × List User :=
  (200, (updateUser callerId { lastSeen := some now } now users).2)

/-- One element of the `GET /api/contacts` response. -/
structure ContactOut where
  id : String
  name : String
  phone : String
  status : String
  profilePicture : String
  addedAt : Nat
  isOnline : Bool
  lastSeen : Option Nat
deriving Repr, DecidableEq

/-- `GET /api/contacts` (authenticated caller `callerId`), from
`src/app/api/contacts/route.ts`: join the caller's contact edges with the
referenced users (dropping dangling edges) and derive presence. -/
def getContactsRoute (now : Nat) (callerId : String) (cs : ContactStore)
    (users : List User) : List ContactOut :=
  (getUserContacts callerId cs).filterMap fun c =>
    match users.find? (fun u => u.id == c.contactId) with
    | none => none
    | some u =>
        some ⟨u.id, u.name, u.phone, u.status, u.profilePicture, c.addedAt,
              isOnlineAt now u.lastSeen, u.lastSeen⟩

/-- Result of `POST /api/contacts`: HTTP status, the `error` string when
rejected, the serialized `contact` object when created, and both stores as
persisted afterwards. -/
structure ContactsPostResult where
  status : Nat
  error : Option String
  contact : Option (List (String × JVal))
  users : List User
  contacts : ContactStore
deriving Repr, DecidableEq

/-- `POST /api/contacts` (authenticated caller `callerId`), from
`src/app/api/contacts/route.ts`.  By-id branch when `contactId` is truthy:
404 if unknown, 400 on self-add, else `addContact` and 201 with the full
`contactUser` record.  By-phone branch when `phone` and `name` are truthy:
validate the normalized phone, create a passwordless user when nothing
matches the phone (persisted even if a later check rejects), then 400 on
self-add or an already-present edge, else `addContact` and 201 with the
password-scrubbed contact. -/
def postContactsRoute (callerId : String) (contactId phone name : Option String)
    (freshId : String) (now : Nat) (users : List User) (cs : ContactStore) :
    ContactsPostResult :=
  if !falsyStr contactId then
    let cid := contactId.getD ""
    match users.find? (fun u => u.id == cid) with
    | none => ⟨404, some "User not found", none, users, cs⟩
    | some contactUser =>
        if cid == callerId then
          ⟨400, some "Cannot add yourself as a contact", none, users, cs⟩
        else
          ⟨201, none, some (userJson contactUser), users, addContact callerId cid now cs⟩
  else if !falsyStr phone && !falsyStr name then
    let normalizedPhone := normalizePhone (phone.getD "")
    if !phoneRegexTest normalizedPhone then
      ⟨400, some "Invalid phone number format. Please enter 10-15 digits.", none, users, cs⟩
    else
      let found := users.find? (fun u => u.phone == normalizedPhone)
      let afterLookup : User × List User :=
        match found with
        | some u => (u, users)
        | none => createUser normalizedPhone "" (jsTrim (name.getD "")) freshId now users
      let contactUser := afterLookup.1
      let users' := afterLookup.2
      if contactUser.id == callerId then
        ⟨400, some "Cannot add yourself as a contact", none, users', cs⟩
      else if (getUserContacts callerId cs).any (fun c => c.contactId == contactUser.id) then
        ⟨400, some "This contact is already in your contact list", none, users', cs⟩
      else
        ⟨201, none, some (userWithoutPassword contactUser), users',
         addContact callerId contactUser.id now cs⟩
  else
    ⟨400, some "Either contactId or phone and name are required", none, users, cs⟩

/-- The minimal identity `authorize` returns on success. -/
structure SessionUser where
  id : String
  phone : String
  name : String
deriving Repr, DecidableEq

/-- The `authorize` callback of the credentials provider in `src/lib/auth.ts`,
parameterized by `bcrypt.compare`: `null` on falsy credentials, `null` when no
user has the normalized phone, `null` when the hash comparison fails, and the
minimal `{id, phone, name}` identity on success. -/
def authorize (bcryptCompare : String → String → Bool)
    (credPhone credPassword : Option String) (users : List User) : Option SessionUser :=
  if falsyStr credPhone || falsyStr credPassword then none
  else
    let normalizedPhone := normalizePhone (credPhone.getD "")
    match users.find? (fun u => u.phone == normalizedPhone) with
    | none => none
    | some user =>
        if bcryptCompare (credPassword.getD "") user.password then
          some ⟨user.id, user.phone, user.name⟩
        else none

/-- Field lookup in a JSON request body: the destructuring
`const { name, status, profilePicture } = await request.json()` reads exactly
these keys and ignores every other property of the body. -/
def bodyField (k : String) (body : List (String × String)) : Option String :=
  (body.find? (fun kv => kv.1 == k)).map (fun kv => kv.2)

/-- Result of `PUT /api/profile`: HTTP status, the serialized response body,
and the user store as persisted afterwards. -/
structure ProfilePutResult where
  status : Nat
  body : Option (List (String × JVal))
  users : List User
deriving Repr, DecidableEq

/-- `PUT /api/profile` (authenticated caller `callerId`), from the profile
route: build `updates` from the `name`, `status` and `profilePicture` body
fields when present, apply `updateUser`, and return the updated record
without its password. -/
def putProfileRoute (callerId : String) (body : List (String × String)) (now : Nat)
    (users : List User) : ProfilePutResult :=
  match updateUser callerId
      { name := bodyField "name" body
        status := bodyField "status" body
        profilePicture := bodyField "profilePicture" body
        lastSeen := none } now users with
  | (some u, users') => ⟨200, some (userWithoutPassword u), users'⟩
  | (none, _) => ⟨404, none, users⟩

/-- Sample registered user (for concrete evaluations). -/
def userAlice : User :=
  { id := "A", phone := "1111111111", password := "hA", name := "Alice",
    status := "", profilePicture := "", createdAt := 0 }

/-- Sample registered user with a recorded heartbeat (for concrete
evaluations). -/
def userBob : User :=
  { id := "B", phone := "2222222222", password := "hB", name := "Bob",
    status := "", profilePicture := "", createdAt := 0, lastSeen := some 760000 }

/-- Structural well-formedness of the persisted contacts object: object keys
are unique, every stored edge's `userId` equals its key, and no owner's list
repeats a `contactId`.  Every store the application builds satisfies this. -/
def ContactStoreWF (cs : ContactStore) : Prop :=
  (cs.map Prod.fst).Nodup ∧
  (∀ p ∈ cs, ∀ x ∈ p.2, x.userId = p.1) ∧
  (∀ p ∈ cs, (p.2.map Contact.contactId).Nodup)

/-- C1: the claim is refuted by a whitespace-only `content`.  `" "` is empty
after trimming, yet `POST /api/messages` (which only tests JavaScript
falsiness, `!content`) accepts it with 201 and appends a message whose stored
content is the empty string. -/
theorem c1_counterexample :
    jsTrim " " = "" ∧
    (postMessagesRoute "A" (some "B") (some " ") "m1" 100 []).status = 201 ∧
    (postMessagesRoute "A" (some "B") (some " ") "m1" 100 []).store =
      [{ id := "m1", senderId := "A", receiverId := "B", content := "",
         timestamp := 100, read := false }] := by
  refine ⟨rfl, rfl, ?_⟩
  decide

/-- C1 (amended): for an authenticated `POST /api/messages`, the request is
rejected with 400 (and the store left unchanged) when the `content` field is
the empty string — emptiness is tested by JavaScript falsiness before
trimming, so whitespace-only content is not rejected; otherwise (with a
non-empty `receiverId`) a message with the trimmed content, the fresh id and
timestamp, and `read = false` is appended and returned with 201. -/
theorem c1_post_messages_amended (senderId rid content freshId : String) (now : Nat)
    (msgs : List Message) :
    (content = "" →
      (postMessagesRoute senderId (some rid) (some content) freshId now msgs).status = 400 ∧
      (postMessagesRoute senderId (some rid) (some content) freshId now msgs).store = msgs) ∧
    (content ≠ "" → rid ≠ "" →
      (postMessagesRoute senderId (some rid) (some content) freshId now msgs).status = 201 ∧
      (postMessagesRoute senderId (some rid) (some content) freshId now msgs).store =
        msgs ++ [{ id := freshId, senderId := senderId, receiverId := rid,
                   content := jsTrim content, timestamp := now, read := false }] ∧
      (postMessagesRoute senderId (some rid) (some content) freshId now msgs).created =
        some { id := freshId, senderId := senderId, receiverId := rid,
               content := jsTrim content, timestamp := now, read := false }) := by
  constructor
  · intro h
    subst h
    simp [postMessagesRoute, falsyStr]
  · intro hc hr
    simp [postMessagesRoute, falsyStr, hc, hr, createMessage]

/-- C1 witness: a concrete non-empty content is appended trimmed. -/
theorem c1_post_messages_amended_witness :
    (postMessagesRoute "A" (some "B") (some " hi ") "m1" 100 []).status = 201 ∧
    (postMessagesRoute "A" (some "B") (some " hi ") "m1" 100 []).store =
      [{ id := "m1", senderId := "A", receiverId := "B", content := "hi",
         timestamp := 100, read := false }] := by
  have h := (c1_post_messages_amended "A" "B" " hi " "m1" 100 []).2 (by decide) (by decide)
  refine ⟨h.1, ?_⟩
  rw [h.2.1]
  decide

/-- C3: `markMessagesAsRead(readerId, otherId)` keeps the store's length,
rewrites position `i` to the same message with `read := true` exactly when
its sender is `otherId`, its receiver is `readerId` and it is unread (all
other messages, and all other fields, unchanged), and `GET
/api/messages?userId=otherId` persists exactly this store. -/
theorem c3_mark_read (readerId otherId : String) (msgs : List Message) :
    (markMessagesAsRead readerId otherId msgs).length = msgs.length ∧
    (∀ (i : Nat) (m : Message), msgs[i]? = some m →
      (markMessagesAsRead readerId otherId msgs)[i]? =
        some (if m.senderId = otherId ∧ m.receiverId = readerId ∧ m.read = false
              then { m with read := true } else m)) ∧
    (otherId ≠ "" →
      (getMessagesRoute readerId (some otherId) msgs).store =
        markMessagesAsRead readerId otherId msgs) := by
  refine ⟨by simp [markMessagesAsRead], ?_, ?_⟩
  · intro i m hm
    simp only [markMessagesAsRead, List.getElem?_map, hm, Option.map_some]
    by_cases h : m.senderId = otherId ∧ m.receiverId = readerId ∧ m.read = false
    · obtain ⟨h1, h2, h3⟩ := h
      simp [h1, h2, h3]
    · simp only [if_neg h]
      rcases Decidable.not_and_iff_or_not.mp h with h' | h'
      · simp [h']
      · rcases Decidable.not_and_iff_or_not.mp h' with h'' | h''
        · simp [h'']
        · have : m.read = true := by
            cases hr : m.read
            · exact absurd hr h''
            · rfl
          simp [this]
  · intro h
    simp [getMessagesRoute, falsyStr, h]

/-- C3 witness: one unread incoming message is flipped to read, and the GET
route persists that store. -/
theorem c3_mark_read_witness :
    (markMessagesAsRead "A" "B" [⟨"m1", "B", "A", "hi", 5, false⟩])[0]? =
      some (⟨"m1", "B", "A", "hi", 5, true⟩ : Message) ∧
    (getMessagesRoute "A" (some "B") [⟨"m1", "B", "A", "hi", 5, false⟩]).store =
      markMessagesAsRead "A" "B" [⟨"m1", "B", "A", "hi", 5, false⟩] := by
  have h := c3_mark_read "A" "B" [⟨"m1", "B", "A", "hi", 5, false⟩]
  refine ⟨?_, h.2.2 (by decide)⟩
  rw [h.2.1 0 ⟨"m1", "B", "A", "hi", 5, false⟩ rfl]
  decide

/-- C4: conversations are symmetric — `getConversation(A, B)` and
`getConversation(B, A)` return the same list, containing exactly the
messages exchanged between `A` and `B` in either direction, sorted
ascending by timestamp. -/
theorem c4_conversation_symmetric_sorted (a b : String) (msgs : List Message) :
    getConversationMessages a b msgs = getConversationMessages b a msgs ∧
    (∀ m, m ∈ getConversationMessages a b msgs ↔
      (m ∈ msgs ∧
        ((m.senderId = a ∧ m.receiverId = b) ∨ (m.senderId = b ∧ m.receiverId = a)))) ∧
    List.Sorted msgLe (getConversationMessages a b msgs) := by
  refine ⟨?_, ?_, List.sorted_insertionSort msgLe _⟩
  · unfold getConversationMessages
    congr 1
    apply List.filter_congr
    intro m _
    simp only [conversationFilter]
    exact Bool.or_comm _ _
  · intro m
    simp [getConversationMessages, List.mem_filter, conversationFilter,
      and_assoc]

/-- `updateUser` preserves the store's length. -/
theorem updateUser_length (userId : String) (upd : UserUpdates) (now : Nat)
    (users : List User) : (updateUser userId upd now users).2.length = users.length := by
  unfold updateUser
  split
  · simp
  · rfl

/-- Frame property of `updateUser`: position `j` is unchanged unless `j` is
the first index whose user has the target id, where the merge is applied. -/
theorem updateUser_frame (userId : String) (upd : UserUpdates) (now : Nat)
    (users : List User) (j : Nat) (u : User) (hj : users[j]? = some u) :
    ∃ u', (updateUser userId upd now users).2[j]? = some u' ∧
      (j ≠ users.findIdx (fun v => v.id == userId) → u' = u) ∧
      (j = users.findIdx (fun v => v.id == userId) → u' = applyUpdates u upd now) := by
  unfold updateUser
  by_cases hi : users.findIdx (fun v => v.id == userId) < users.length
  · rw [dif_pos hi]
    by_cases hji : j = users.findIdx (fun v => v.id == userId)
    · have hij : users[users.findIdx (fun v => v.id == userId)]? = some u := by
        rw [← hji]; exact hj
      have hget : users.get ⟨users.findIdx (fun v => v.id == userId), hi⟩ = u := by
        rw [List.getElem?_eq_getElem hi] at hij
        simpa using hij
      refine ⟨applyUpdates u upd now, ?_, fun h => absurd hji h, fun _ => rfl⟩
      show (users.set (users.findIdx (fun v => v.id == userId))
        (applyUpdates (users.get ⟨users.findIdx (fun v => v.id == userId), hi⟩) upd now))[j]? =
        some (applyUpdates u upd now)
      rw [hget, hji]
      exact List.getElem?_set_eq_of_lt _ hi
    · refine ⟨u, ?_, fun _ => rfl, fun h => absurd h hji⟩
      show (users.set (users.findIdx (fun v => v.id == userId))
        (applyUpdates (users.get ⟨users.findIdx (fun v => v.id == userId), hi⟩) upd now))[j]? =
        some u
      rw [List.getElem?_set_ne (fun h => hji h.symm)]
      exact hj
  · rw [dif_neg hi]
    have hjlen : j < users.length := (List.getElem?_eq_some_iff.mp hj).1
    refine ⟨u, hj, fun _ => rfl, fun h => ?_⟩
    exact absurd (h ▸ hjlen) hi

/-- The user store persisted by `PUT /api/profile` is exactly the one
`updateUser` produces (also when no user matches, where both leave it
unchanged). -/
theorem putProfileRoute_users (callerId : String) (body : List (String × String))
    (now : Nat) (users : List User) :
    (putProfileRoute callerId body now users).users =
      (updateUser callerId
        { name := bodyField "name" body, status := bodyField "status" body,
          profilePicture := bodyField "profilePicture" body, lastSeen := none }
        now users).2 := by
  unfold putProfileRoute
  have hnone : (updateUser callerId
      { name := bodyField "name" body, status := bodyField "status" body,
        profilePicture := bodyField "profilePicture" body, lastSeen := none }
      now users).1 = none →
      (updateUser callerId
        { name := bodyField "name" body, status := bodyField "status" body,
          profilePicture := bodyField "profilePicture" body, lastSeen := none }
        now users).2 = users := by
    unfold updateUser
    split
    · simp
    · intro _; rfl
  split
  · next u users' heq => rw [heq]
  · next heq =>
      have h1 : (updateUser callerId
          { name := bodyField "name" body, status := bodyField "status" body,
            profilePicture := bodyField "profilePicture" body, lastSeen := none }
          now users).1 = none := by rw [heq]
      simpa using (hnone h1).symm

/-- C8: the heartbeat `POST /api/users/status` responds 200 and only touches
the caller's record, where it sets `lastSeen` (and the bookkeeping
`updatedAt`) to the current time: every listed field of the caller and every
other user record are unchanged. -/
theorem c8_heartbeat_frame (callerId : String) (now : Nat) (users : List User) :
    (postUsersStatusRoute callerId now users).1 = 200 ∧
    (postUsersStatusRoute callerId now users).2.length = users.length ∧
    (∀ (j : Nat) (u : User), users[j]? = some u →
      ∃ u', (postUsersStatusRoute callerId now users).2[j]? = some u' ∧
        u'.id = u.id ∧ u'.phone = u.phone ∧ u'.password = u.password ∧
        u'.name = u.name ∧ u'.status = u.status ∧
        u'.profilePicture = u.profilePicture ∧ u'.createdAt = u.createdAt ∧
        (j ≠ users.findIdx (fun v => v.id == callerId) → u' = u) ∧
        (j = users.findIdx (fun v => v.id == callerId) →
          u' = { u with lastSeen := some now, updatedAt := some now })) := by
  refine ⟨rfl, updateUser_length _ _ _ _, ?_⟩
  intro j u hj
  obtain ⟨u', hu', hne, heq⟩ :=
    updateUser_frame callerId { lastSeen := some now } now users j u hj
  refine ⟨u', hu', ?_⟩
  by_cases hji : j = users.findIdx (fun v => v.id == callerId)
  · have := heq hji
    subst this
    simp [applyUpdates]
    exact fun h => absurd hji h
  · have := hne hji
    subst this
    exact ⟨rfl, rfl, rfl, rfl, rfl, rfl, rfl, fun _ => rfl, fun h => absurd h hji⟩

/-- C8 witness: a concrete heartbeat updates the caller's `lastSeen` and
leaves the other user untouched. -/
theorem c8_heartbeat_frame_witness :
    (postUsersStatusRoute "B" 999 [userAlice, userBob]).2[0]? = some userAlice ∧
    (postUsersStatusRoute "B" 999 [userAlice, userBob]).2[1]? =
      some { userBob with lastSeen := some 999, updatedAt := some 999 } := by
  have h := (c8_heartbeat_frame "B" 999 [userAlice, userBob]).2.2
  obtain ⟨u0, hu0, -, -, -, -, -, -, -, hne0, -⟩ := h 0 userAlice rfl
  obtain ⟨u1, hu1, -, -, -, -, -, -, -, -, heq1⟩ := h 1 userBob rfl
  constructor
  · rw [hu0, hne0 (by decide)]
  · rw [hu1, heq1 (by decide)]

/-- C10: `PUT /api/profile` can only change the caller's `name`, `status` and
`profilePicture` (plus the bookkeeping `updatedAt`): whatever the request
body contains, the caller's `id`, `phone`, `password`, `createdAt` and
`lastSeen`, and every other user's record, are unchanged. -/
theorem c10_profile_update_frame (callerId : String) (body : List (String × String))
    (now : Nat) (users : List User) :
    (putProfileRoute callerId body now users).users.length = users.length ∧
    (∀ (j : Nat) (u : User), users[j]? = some u →
      ∃ u', (putProfileRoute callerId body now users).users[j]? = some u' ∧
        u'.id = u.id ∧ u'.phone = u.phone ∧ u'.password = u.password ∧
        u'.createdAt = u.createdAt ∧ u'.lastSeen = u.lastSeen ∧
        (j ≠ users.findIdx (fun v => v.id == callerId) → u' = u)) := by
  rw [putProfileRoute_users]
  refine ⟨updateUser_length _ _ _ _, ?_⟩
  intro j u hj
  obtain ⟨u', hu', hne, heq⟩ := updateUser_frame callerId
    { name := bodyField "name" body, status := bodyField "status" body,
      profilePicture := bodyField "profilePicture" body, lastSeen := none }
    now users j u hj
  refine ⟨u', hu', ?_⟩
  by_cases hji : j = users.findIdx (fun v => v.id == callerId)
  · have := heq hji
    subst this
    simp [applyUpdates]
    exact fun h => absurd hji h
  · have := hne hji
    subst this
    exact ⟨rfl, rfl, rfl, rfl, rfl, fun _ => rfl⟩

/-- C10 witness: a body with an extra field and a new name changes only the
caller's mutable profile fields. -/
theorem c10_profile_update_frame_witness :
    ∃ u', (putProfileRoute "A" [("name", "Al"), ("password", "evil")] 50
        [userAlice, userBob]).users[0]? = some u' ∧
      u'.password = "hA" ∧ u'.phone = "1111111111" ∧ u'.lastSeen = none := by
  obtain ⟨u', hu', _, _, hpw, _, hls, _⟩ :=
    (c10_profile_update_frame "A" [("name", "Al"), ("password", "evil")] 50
      [userAlice, userBob]).2 0 userAlice rfl
  exact ⟨u', hu', hpw, by assumption, hls⟩

/-- C5: for a user with a recorded `lastSeen`, both presence readers report
`online` exactly when `now − lastSeen < 5` minutes (strictly), with the raw
`lastSeen` returned alongside: `GET /api/users/status` maps the id to that
entry, and `GET /api/contacts` embeds the same flag and timestamp in the
contact row; in particular `lastSeen = now − 4` minutes is online and
`lastSeen = now − 6` minutes is offline. -/
theorem c5_presence_threshold (now t : Nat) (uid : String) (users : List User) (u : User)
    (hfind : users.find? (fun v => v.id == uid) = some u) (hls : u.lastSeen = some t) :
    getUsersStatusRoute now [uid] users = [(uid, ⟨isOnlineAt now (some t), some t⟩)] ∧
    (isOnlineAt now (some t) = true ↔ (now : Int) - (t : Int) < 5 * 60 * 1000) ∧
    (∀ (callerId : String) (cs : ContactStore) (c : Contact),
      c ∈ getUserContacts callerId cs → c.contactId = uid →
      (⟨u.id, u.name, u.phone, u.status, u.profilePicture, c.addedAt,
        isOnlineAt now (some t), some t⟩ : ContactOut) ∈ getContactsRoute now callerId cs users) ∧
    (4 * 60 * 1000 ≤ now → isOnlineAt now (some (now - 4 * 60 * 1000)) = true) ∧
    (6 * 60 * 1000 ≤ now → isOnlineAt now (some (now - 6 * 60 * 1000)) = false) := by
  refine ⟨?_, ?_, ?_, ?_, ?_⟩
  · simp [getUsersStatusRoute, hfind, hls]
  · simp [isOnlineAt, lastSeenMs, OFFLINE_THRESHOLD]
  · intro callerId cs c hc hcid
    unfold getContactsRoute
    rw [List.mem_filterMap]
    refine ⟨c, hc, ?_⟩
    rw [hcid, hfind]
    simp [hls]
  · intro h4
    simp only [isOnlineAt, lastSeenMs, OFFLINE_THRESHOLD, decide_eq_true_eq]
    omega
  · intro h6
    simp only [isOnlineAt, lastSeenMs, OFFLINE_THRESHOLD, decide_eq_false_iff_not]
    omega

/-- C5 witness: at `now = 1000000` a user last seen 4 minutes ago (`760000`)
is online in both the status map and the contact row. -/
theorem c5_presence_threshold_witness :
    getUsersStatusRoute 1000000 ["B"] [userBob] = [("B", ⟨true, some 760000⟩)] ∧
    (⟨"B", "Bob", "2222222222", "", "", 10, true, some 760000⟩ : ContactOut) ∈
      getContactsRoute 1000000 "A" [("A", [⟨"A", "B", 10⟩])] [userBob] := by
  have h := c5_presence_threshold 1000000 760000 "B" [userBob] userBob (by decide) rfl
  have hon : isOnlineAt 1000000 (some 760000) = true := by decide
  constructor
  · rw [h.1, hon]
  · have h2 := h.2.2.1 "A" [("A", [⟨"A", "B", 10⟩])] ⟨"A", "B", 10⟩ (by decide) rfl
    rw [hon] at h2
    exact h2

/-- C9: a login attempt against a store with no user at the normalized phone
and one against a store where the phone's user has a non-matching password
hash produce identical `authorize` results (both the generic `none`), so the
two failure causes are indistinguishable to the client. -/
theorem c9_login_failure_indistinguishable (bc : String → String → Bool)
    (ph pw : String) (users1 users2 : List User) (u : User)
    (h1 : users1.find? (fun v => v.phone == normalizePhone ph) = none)
    (h2 : users2.find? (fun v => v.phone == normalizePhone ph) = some u)
    (h3 : bc pw u.password = false) :
    authorize bc (some ph) (some pw) users1 = authorize bc (some ph) (some pw) users2 ∧
    authorize bc (some ph) (some pw) users1 = none := by
  have e1 : authorize bc (some ph) (some pw) users1 = none := by
    unfold authorize
    split
    · rfl
    · simp only [Option.getD]
      rw [h1]
  have e2 : authorize bc (some ph) (some pw) users2 = none := by
    unfold authorize
    split
    · rfl
    · simp only [Option.getD]
      rw [h2]
      simp [h3]
  exact ⟨e1.trans e2.symm, e1⟩

/-- C9 witness: unknown phone vs. wrong password at a concrete store. -/
theorem c9_login_failure_indistinguishable_witness :
    authorize (fun p h => p == h) (some "1111111111") (some "wrong") [] =
      authorize (fun p h => p == h) (some "1111111111") (some "wrong") [userAlice] ∧
    authorize (fun p h => p == h) (some "1111111111") (some "wrong") [] = none :=
  c9_login_failure_indistinguishable (fun p h => p == h) "1111111111" "wrong"
    [] [userAlice] userAlice (by decide) (by decide) (by decide)

/-- After `contacts[k] = v`, looking up `k` finds exactly `(k, v)`. -/
theorem find?_setKey (k : String) (v : List Contact) (cs : ContactStore) :
    (setKey k v cs).find? (fun p => p.1 == k) = some (k, v) := by
  induction cs with
  | nil => simp [setKey]
  | cons p rest ih =>
      by_cases hp : p.1 = k
      · simp [setKey, List.any_cons, hp]
      · have hsplit : setKey k v (p :: rest) = p :: setKey k v rest := by
          simp only [setKey, List.any_cons]
          by_cases hr : rest.any (fun q => q.1 == k) = true
          · simp [hp, hr]
          · simp [hp, hr]
        rw [hsplit]
        simp [List.find?_cons, hp, ih]

/-- `getUserContacts` after `contacts[k] = v` returns `v`. -/
theorem getUserContacts_setKey (k : String) (v : List Contact) (cs : ContactStore) :
    getUserContacts k (setKey k v cs) = v := by
  unfold getUserContacts
  rw [find?_setKey]

/-- Replacing the value at key `k` in place does not affect `find?` for a
different key `k'`. -/
theorem find?_map_setKey_ne (k k' : String) (v : List Contact) (cs : ContactStore)
    (hbeq : (k == k') = false) :
    (cs.map (fun p => if p.1 == k then (k, v) else p)).find? (fun p => p.1 == k') =
      cs.find? (fun p => p.1 == k') := by
  induction cs with
  | nil => rfl
  | cons p rest ih =>
      simp only [List.map_cons]
      by_cases hp : p.1 = k
      · rw [if_pos (by simpa using hp)]
        rw [List.find?_cons_of_neg _ (by simp [hbeq]),
            List.find?_cons_of_neg _ (by simp only [hp]; simp [hbeq])]
        exact ih
      · rw [if_neg (by simpa using hp)]
        by_cases hp' : p.1 = k'
        · rw [List.find?_cons_of_pos _ (by simpa using hp'),
              List.find?_cons_of_pos _ (by simpa using hp')]
        · rw [List.find?_cons_of_neg _ (by simpa using hp'),
              List.find?_cons_of_neg _ (by simpa using hp')]
          exact ih

/-- `contacts[k] = v` does not affect lookups of other keys. -/
theorem getUserContacts_setKey_ne (k k' : String) (v : List Contact) (cs : ContactStore)
    (h : k' ≠ k) : getUserContacts k' (setKey k v cs) = getUserContacts k' cs := by
  have hbeq : (k == k') = false := by
    simp only [beq_eq_false_iff_ne, ne_eq]
    exact fun e => h e.symm
  have hfind : (setKey k v cs).find? (fun p => p.1 == k') =
      cs.find? (fun p => p.1 == k') := by
    unfold setKey
    split
    · exact find?_map_setKey_ne k k' v cs hbeq
    · rw [List.find?_append]
      cases hfound : cs.find? (fun p => p.1 == k') with
      | some q => rfl
      | none =>
          rw [List.find?_cons_of_neg _ (by simp [hbeq])]
          rfl
  unfold getUserContacts
  rw [hfind]

/-- `addContact` is a no-op when the edge is already present. -/
theorem addContact_of_present (u c : String) (now : Nat) (cs : ContactStore)
    (h : (getUserContacts u cs).any (fun x => x.contactId == c) = true) :
    addContact u c now cs = cs := by
  simp [addContact, h]

/-- `addContact` of a new edge appends it to the owner's list. -/
theorem getUserContacts_addContact_self (u c : String) (now : Nat) (cs : ContactStore)
    (h : (getUserContacts u cs).any (fun x => x.contactId == c) = false) :
    getUserContacts u (addContact u c now cs) =
      getUserContacts u cs ++ [⟨u, c, now⟩] := by
  simp only [addContact, h, Bool.false_eq_true, if_false]
  exact getUserContacts_setKey u _ cs

/-- `addContact` leaves every other owner's list unchanged. -/
theorem getUserContacts_addContact_ne (u c k : String) (now : Nat) (cs : ContactStore)
    (h : k ≠ u) : getUserContacts k (addContact u c now cs) = getUserContacts k cs := by
  unfold addContact
  split
  · rfl
  · exact getUserContacts_setKey_ne u k _ cs h

/-- After `addContact u c`, the owner's list always contains an edge to `c`. -/
theorem any_contactId_addContact (u c : String) (now : Nat) (cs : ContactStore) :
    (getUserContacts u (addContact u c now cs)).any (fun x => x.contactId == c) = true := by
  by_cases h : (getUserContacts u cs).any (fun x => x.contactId == c) = true
  · rw [addContact_of_present u c now cs h]
    exact h
  · rw [getUserContacts_addContact_self u c now cs (by simpa using h)]
    simp

/-- `contacts[k] = v` preserves well-formedness when the new list is itself
well-formed for key `k`. -/
theorem wf_setKey (u : String) (v : List Contact) (cs : ContactStore)
    (hwf : ContactStoreWF cs)
    (hvown : ∀ x ∈ v, x.userId = u)
    (hvnd : (v.map Contact.contactId).Nodup) :
    ContactStoreWF (setKey u v cs) := by
  obtain ⟨hkeys, hown, hnd⟩ := hwf
  unfold setKey
  split
  · refine ⟨?_, ?_, ?_⟩
    · have hmap : (cs.map (fun p => if p.1 == u then (u, v) else p)).map Prod.fst =
          cs.map Prod.fst := by
        rw [List.map_map]
        apply List.map_congr_left
        intro p _
        by_cases hp : p.1 = u
        · simp [hp]
        · simp [hp]
      rw [hmap]
      exact hkeys
    · intro p hp x hx
      obtain ⟨q, hq, hfq⟩ := List.mem_map.mp hp
      by_cases hqu : q.1 = u
      · rw [if_pos (by simpa using hqu)] at hfq
        rw [← hfq] at hx ⊢
        exact hvown x hx
      · rw [if_neg (by simpa using hqu)] at hfq
        rw [← hfq] at hx ⊢
        exact hown q hq x hx
    · intro p hp
      obtain ⟨q, hq, hfq⟩ := List.mem_map.mp hp
      by_cases hqu : q.1 = u
      · rw [if_pos (by simpa using hqu)] at hfq
        rw [← hfq]
        exact hvnd
      · rw [if_neg (by simpa using hqu)] at hfq
        rw [← hfq]
        exact hnd q hq
  · next hnotin =>
      have hku : u ∉ cs.map Prod.fst := by
        intro hmem
        obtain ⟨q, hq, hfq⟩ := List.mem_map.mp hmem
        apply hnotin
        rw [List.any_eq_true]
        exact ⟨q, hq, by simpa using hfq⟩
      refine ⟨?_, ?_, ?_⟩
      · rw [List.map_append]
        simp only [List.map_cons, List.map_nil]
        rw [List.nodup_append]
        refine ⟨hkeys, List.nodup_singleton u, ?_⟩
        intro a ha hb
        simp only [List.mem_singleton] at hb
        exact hku (hb ▸ ha)
      · intro p hp x hx
        rcases List.mem_append.mp hp with h | h
        · exact hown p h x hx
        · simp only [List.mem_singleton] at h
          rw [h] at hx ⊢
          exact hvown x hx
      · intro p hp
        rcases List.mem_append.mp hp with h | h
        · exact hnd p h
        · simp only [List.mem_singleton] at h
          rw [h]
          exact hvnd

/-- `addContact` preserves well-formedness of the contacts object. -/
theorem wf_addContact (u c : String) (now : Nat) (cs : ContactStore)
    (hwf : ContactStoreWF cs) : ContactStoreWF (addContact u c now cs) := by
  unfold addContact
  by_cases hpre : (getUserContacts u cs).any (fun x => x.contactId == c) = true
  · rw [if_pos hpre]
    exact hwf
  · rw [if_neg hpre]
    apply wf_setKey u _ cs hwf
    · intro x hx
      rcases List.mem_append.mp hx with h | h
      · unfold getUserContacts at h
        cases hfound : cs.find? (fun p => p.1 == u) with
        | none => rw [hfound] at h; cases h
        | some q =>
            rw [hfound] at h
            have hq : q ∈ cs := List.mem_of_find?_eq_some hfound
            have hqk : q.1 = u := by
              have := List.find?_some hfound
              simpa using this
            rw [← hqk]
            exact hwf.2.1 q hq x h
      · simp only [List.mem_singleton] at h
        rw [h]
    · rw [List.map_append]
      simp only [List.map_cons, List.map_nil]
      rw [List.nodup_append]
      refine ⟨?_, List.nodup_singleton c, ?_⟩
      · unfold getUserContacts
        cases hfound : cs.find? (fun p => p.1 == u) with
        | none => simp
        | some q => exact hwf.2.2 q (List.mem_of_find?_eq_some hfound)
      · intro a ha hb
        simp only [List.mem_singleton] at hb
        apply hpre
        rw [List.any_eq_true]
        obtain ⟨x, hx, hxa⟩ := List.mem_map.mp ha
        exact ⟨x, hx, by simp [hxa, hb]⟩

/-- Well-formedness implies the flat list of (owner, contact) pairs has no
duplicates. -/
theorem wf_storeEdges_nodup (cs : ContactStore) (hwf : ContactStoreWF cs) :
    (storeEdges cs).Nodup := by
  obtain ⟨hkeys, hown, hnd⟩ := hwf
  unfold storeEdges
  rw [List.nodup_flatMap]
  constructor
  · intro p hp
    apply List.Nodup.of_map Prod.snd
    rw [List.map_map]
    exact hnd p hp
  · have hkp : cs.Pairwise (fun p q => p.1 ≠ q.1) := List.pairwise_map.mp hkeys
    refine hkp.imp_of_mem ?_
    intro p q hp hq hne x hxp hxq
    obtain ⟨cp, hcp, hx1⟩ := List.mem_map.mp hxp
    obtain ⟨cq, hcq, hx2⟩ := List.mem_map.mp hxq
    apply hne
    calc p.1 = cp.userId := (hown p hp cp hcp).symm
      _ = x.1 := by rw [← hx1]
      _ = cq.userId := by rw [← hx2]
      _ = q.1 := hown q hq cq hcq

/-- Every reachable contacts object is well-formed. -/
theorem reachable_wf (cs : ContactStore) (h : ReachableContacts cs) :
    ContactStoreWF cs := by
  induction h with
  | empty => exact ⟨List.nodup_nil, by simp, by simp⟩
  | step u c now _ ih => exact wf_addContact u c now _ ih

/-- C2: evaluating the code at the failing input.  An authenticated
`POST /api/contacts` with body `{contactId: "B"}` (caller `"A"`, both users
registered) succeeds with 201, and the `contact` object of the response is
the full stored user record — including the `password` field with the stored
hash — because the by-id branch returns `contactUser` without the rest-spread
scrub that the by-phone branch and every other user-returning route apply. -/
theorem c2_contacts_by_id_response_has_password :
    (postContactsRoute "A" (some "B") none none "f" 10 [userAlice, userBob] []).status = 201 ∧
    (postContactsRoute "A" (some "B") none none "f" 10 [userAlice, userBob] []).contact =
      some (userJson userBob) ∧
    ("password", JVal.str "hB") ∈ userJson userBob := by
  refine ⟨by decide, by decide, by decide⟩

/-- C6: every reachable contact store lists each (owner, contact) pair at
most once; `POST /api/contacts` by id succeeds with 201 and leaves the store
unchanged when the edge is already present (idempotence), responds 404 when
the target does not exist, and 400 when the target is the caller. -/
theorem c6_contact_uniqueness_idempotent :
    (∀ cs : ContactStore, ReachableContacts cs → (storeEdges cs).Nodup) ∧
    (∀ (callerId targetId freshId : String) (now : Nat) (users : List User)
        (cs : ContactStore) (tu : User),
      targetId ≠ "" →
      users.find? (fun v => v.id == targetId) = some tu →
      targetId ≠ callerId →
      (getUserContacts callerId cs).any (fun x => x.contactId == targetId) = true →
      (postContactsRoute callerId (some targetId) none none freshId now users cs).status = 201 ∧
      (postContactsRoute callerId (some targetId) none none freshId now users cs).contacts = cs) ∧
    (∀ (callerId targetId freshId : String) (now : Nat) (users : List User)
        (cs : ContactStore),
      targetId ≠ "" →
      users.find? (fun v => v.id == targetId) = none →
      (postContactsRoute callerId (some targetId) none none freshId now users cs).status = 404 ∧
      (postContactsRoute callerId (some targetId) none none freshId now users cs).contacts = cs) ∧
    (∀ (callerId freshId : String) (now : Nat) (users : List User) (cs : ContactStore)
        (cu : User),
      callerId ≠ "" →
      users.find? (fun v => v.id == callerId) = some cu →
      (postContactsRoute callerId (some callerId) none none freshId now users cs).status = 400 ∧
      (postContactsRoute callerId (some callerId) none none freshId now users cs).contacts = cs) := by
  refine ⟨?_, ?_, ?_, ?_⟩
  · intro cs h
    exact wf_storeEdges_nodup cs (reachable_wf cs h)
  · intro callerId targetId freshId now users cs tu hne hfind hnself hpresent
    have heval : postContactsRoute callerId (some targetId) none none freshId now users cs =
        ⟨201, none, some (userJson tu), users, addContact callerId targetId now cs⟩ := by
      simp [postContactsRoute, falsyStr, hne, hfind, hnself]
    rw [heval, addContact_of_present callerId targetId now cs hpresent]
    exact ⟨rfl, rfl⟩
  · intro callerId targetId freshId now users cs hne hfind
    have heval : postContactsRoute callerId (some targetId) none none freshId now users cs =
        ⟨404, some "User not found", none, users, cs⟩ := by
      simp [postContactsRoute, falsyStr, hne, hfind]
    rw [heval]
    exact ⟨rfl, rfl⟩
  · intro callerId freshId now users cs cu hne hfind
    have heval : postContactsRoute callerId (some callerId) none none freshId now users cs =
        ⟨400, some "Cannot add yourself as a contact", none, users, cs⟩ := by
      simp [postContactsRoute, falsyStr, hne, hfind]
    rw [heval]
    exact ⟨rfl, rfl⟩

/-- C6 witness: a concrete reachable store has no duplicate pair, and
re-adding an existing contact by id returns 201 without changing it. -/
theorem c6_contact_uniqueness_idempotent_witness :
    (storeEdges (addContact "A" "B" 10 [])).Nodup ∧
    (postContactsRoute "A" (some "B") none none "f" 20 [userAlice, userBob]
        (addContact "A" "B" 10 [])).status = 201 ∧
    (postContactsRoute "A" (some "B") none none "f" 20 [userAlice, userBob]
        (addContact "A" "B" 10 [])).contacts = addContact "A" "B" 10 [] := by
  have h := c6_contact_uniqueness_idempotent
  have h2 := h.2.1 "A" "B" "f" 20 [userAlice, userBob] (addContact "A" "B" 10 []) userBob
    (by decide) (by decide) (by decide) (by decide)
  exact ⟨h.1 _ (ReachableContacts.step "A" "B" 10 ReachableContacts.empty), h2.1, h2.2⟩

/-- C7: adding a contact by a valid fresh phone creates exactly one
passwordless user record and appends exactly one edge to the caller's
contact list (all other lists untouched); repeating the same call creates no
second user, adds no second edge, and is rejected 400 as already a contact. -/
theorem c7_add_by_phone_creates_once (callerId ph nm freshId freshId2 : String)
    (now now2 : Nat) (users : List User) (cs : ContactStore)
    (r1 r2 : ContactsPostResult)
    (hph : ph ≠ "") (hnm : nm ≠ "")
    (hvalid : phoneRegexTest (normalizePhone ph) = true)
    (hnouser : users.find? (fun v => v.phone == normalizePhone ph) = none)
    (hfresh : freshId ≠ callerId)
    (hnotc : (getUserContacts callerId cs).any (fun x => x.contactId == freshId) = false)
    (hr1 : r1 = postContactsRoute callerId none (some ph) (some nm) freshId now users cs)
    (hr2 : r2 = postContactsRoute callerId none (some ph) (some nm) freshId2 now2
      r1.users r1.contacts) :
    r1.status = 201 ∧
    r1.users = users ++ [⟨freshId, normalizePhone ph, "", jsTrim nm, "", "", now, none, none⟩] ∧
    getUserContacts callerId r1.contacts =
      getUserContacts callerId cs ++ [⟨callerId, freshId, now⟩] ∧
    (∀ k, k ≠ callerId → getUserContacts k r1.contacts = getUserContacts k cs) ∧
    r2.status = 400 ∧
    r2.error = some "This contact is already in your contact list" ∧
    r2.users = r1.users ∧
    r2.contacts = r1.contacts := by
  have e1 : postContactsRoute callerId none (some ph) (some nm) freshId now users cs =
      ⟨201, none,
       some (userWithoutPassword
         ⟨freshId, normalizePhone ph, "", jsTrim nm, "", "", now, none, none⟩),
       users ++ [⟨freshId, normalizePhone ph, "", jsTrim nm, "", "", now, none, none⟩],
       addContact callerId freshId now cs⟩ := by
    simp [postContactsRoute, falsyStr, hph, hnm, hvalid, hnouser, createUser, hfresh, hnotc]
  subst hr1
  rw [e1] at hr2 ⊢
  have hfind2 : (users ++
      [(⟨freshId, normalizePhone ph, "", jsTrim nm, "", "", now, none, none⟩ : User)]).find?
        (fun v => v.phone == normalizePhone ph) =
      some ⟨freshId, normalizePhone ph, "", jsTrim nm, "", "", now, none, none⟩ := by
    rw [List.find?_append, hnouser]
    simp
  have halready : (getUserContacts callerId (addContact callerId freshId now cs)).any
      (fun x => x.contactId == freshId) = true :=
    any_contactId_addContact callerId freshId now cs
  have e2 : postContactsRoute callerId none (some ph) (some nm) freshId2 now2
      (users ++ [⟨freshId, normalizePhone ph, "", jsTrim nm, "", "", now, none, none⟩])
      (addContact callerId freshId now cs) =
      ⟨400, some "This contact is already in your contact list", none,
       users ++ [⟨freshId, normalizePhone ph, "", jsTrim nm, "", "", now, none, none⟩],
       addContact callerId freshId now cs⟩ := by
    simp [postContactsRoute, falsyStr, hph, hnm, hvalid, hfind2, hfresh, halready]
  rw [e2] at hr2
  subst hr2
  refine ⟨rfl, rfl, ?_, ?_, rfl, rfl, rfl, rfl⟩
  · exact getUserContacts_addContact_self callerId freshId now cs hnotc
  · intro k hk
    exact getUserContacts_addContact_ne callerId freshId k now cs hk

/-- C7 witness: a concrete add-by-phone call creates the placeholder user
and the single edge, and the repeated call is rejected. -/
theorem c7_add_by_phone_creates_once_witness :
    (postContactsRoute "A" none (some "555 123 4567") (some " Carol ") "C1" 10
      [userAlice] []).users =
      [userAlice] ++ [⟨"C1", "5551234567", "", "Carol", "", "", 10, none, none⟩] ∧
    (postContactsRoute "A" none (some "555 123 4567") (some " Carol ") "C2" 20
      (postContactsRoute "A" none (some "555 123 4567") (some " Carol ") "C1" 10
        [userAlice] []).users
      (postContactsRoute "A" none (some "555 123 4567") (some " Carol ") "C1" 10
        [userAlice] []).contacts).status = 400 := by
  have h := c7_add_by_phone_creates_once "A" "555 123 4567" " Carol " "C1" "C2" 10 20
    [userAlice] [] _ _ (by decide) (by decide) (by decide) (by decide) (by decide)
    (by decide) rfl rfl
  refine ⟨?_, h.2.2.2.2.1⟩
  rw [h.2.1]
  decide

end WebChat
